import Mathlib

/-!
Verification of the braintrust-opencode-plugin tracing core: a shallow
embedding of `src/span-sink.ts` (the merge-or-insert span collector and
`spansToTree`) and `src/event-processor.ts` (the per-session event/turn/span
state machine), with theorems checking the specification's claims.

Modelling conventions:
- A TypeScript optional field becomes `Option`; a JS value that is
  `undefined` is `none`.  JS truthiness on strings and numbers (the empty
  string and `0` are falsy) is modelled by `truthy?` and `truthyN`.
- JS `Map` and `Set` become association lists / lists with JS
  insertion-order semantics (`mapSet`, `mapGet`, `mapDelete`, `setAdd`).
- `new Date(ms).toISOString()` is modelled by the timestamp `ms` itself
  (the ISO rendering is injective and never inspected by the code); the
  fact that it throws a `RangeError` on an invalid (absent) timestamp is
  captured separately by `handleMessageUpdatedThrows`.
- `crypto.randomUUID()` becomes a deterministic fresh-id counter.
- The injected `Clock` is modelled by a `now : Int` argument supplied with
  each delivered event or hook call (within one synchronous handler all
  `clock.now()` reads return this value).
-/

/-- Dynamic (JSON-like) values carried in `input`, `output` and `metadata`
fields of span records. -/
inductive Val where
  | str (s : String)
  | num (n : Int)
  | bool (b : Bool)
  | list (l : List Val)
  | obj (l : List (String × Val))

/-- Minimal JSON string escaping, used by the model of `JSON.stringify`. -/
def jsonEscapeChar (c : Char) : String :=
  if c = '"' then "\\\""
  else if c = '\\' then "\\\\"
  else if c = '\n' then "\\n"
  else if c = '\r' then "\\r"
  else if c = '\t' then "\\t"
  else String.singleton c

/-- Minimal JSON string escaping, used by the model of `JSON.stringify`. -/
def jsonEscape (s : String) : String :=
  s.foldl (fun acc c => acc ++ jsonEscapeChar c) ""

/-- Model of `JSON.stringify` on the dynamic values of this development
(no claim inspects the produced text). -/
def stringifyVal : Val → String
  | .str s => "\"" ++ jsonEscape s ++ "\""
  | .num n => toString n
  | .bool b => if b then "true" else "false"
  | .list l => "[" ++ String.intercalate "," (l.attach.map (fun p => stringifyVal p.1)) ++ "]"
  | .obj l =>
      "\x7b" ++
        String.intercalate ","
          (l.attach.map (fun p => "\"" ++ jsonEscape p.1.1 ++ "\":" ++ stringifyVal p.1.2)) ++
        "\x7d"
termination_by v => sizeOf v
decreasing_by
  · have := List.sizeOf_lt_of_mem p.2
    simp
    omega
  · rcases p with ⟨⟨k, v⟩, hp⟩
    have := List.sizeOf_lt_of_mem hp
    simp at this ⊢
    omega

/-- The `span_attributes.type` union from `client.ts` / `span-sink.ts`:
"llm" | "task" | "tool" | "function" | "eval" | "score". -/
inductive SpanType where
  | llm
  | task
  | tool
  | function
  | eval
  | score
deriving DecidableEq, Repr

/-- The `metrics` object of a span record (`SpanData.metrics` in
`client.ts`, plus `reasoning_tokens` set by the event processor). -/
structure Metrics where
  start : Option Int := none
  «end» : Option Int := none
  prompt_tokens : Option Int := none
  completion_tokens : Option Int := none
  tokens : Option Int := none
  reasoning_tokens : Option Int := none
deriving DecidableEq, Repr

/-- The `span_attributes` object of a span record. -/
structure SpanAttributes where
  name : Option String := none
  type : Option SpanType := none
deriving DecidableEq, Repr

/-- The `SpanData` record from `client.ts` as used by the event processor
and the span sink.  `created` holds the millisecond timestamp whose ISO
rendering the source stores; `metadata` is the key/value record (a key
whose JS value is `undefined` is modelled as absent). -/
structure SpanData where
  id : String
  span_id : String
  root_span_id : String
  span_parents : Option (List String) := none
  created : Option Int := none
  input : Option Val := none
  output : Option Val := none
  error : Option String := none
  metadata : List (String × Val) := []
  metrics : Metrics := {}
  span_attributes : Option SpanAttributes := none
  _is_merge : Bool := false

/-- JS string truthiness: `some s` survives only when `s` is nonempty
(`undefined` and `""` are falsy). -/
def truthy? : Option String → Option String
  | some s => if s = "" then none else some s
  | none => none

/-- JS number truthiness: `some n` survives only when `n ≠ 0`. -/
def truthyN : Option Int → Option Int
  | some n => if n = 0 then none else some n
  | none => none

/-- JS `a || b` on possibly-undefined strings, returning the raw right
operand when the left is falsy. -/
def jsOr? (a b : Option String) : Option String :=
  match truthy? a with
  | some s => some s
  | none => b

/-- JS `a || b` on a possibly-undefined string with a string default. -/
def jsOrS (a : Option String) (b : String) : String :=
  match truthy? a with
  | some s => s
  | none => b

/-- Key-wise JS object spread `\x7b...a, ...b\x7d`: keys of `a` keep their
position (taking `b`'s value when `b` also has the key), then keys only in
`b` follow in `b`'s order. -/
def mergeAList (a b : List (String × Val)) : List (String × Val) :=
  (a.map (fun p =>
      match b.lookup p.1 with
      | some v => (p.1, v)
      | none => p)) ++
    b.filter (fun p => (a.lookup p.1).isNone)

/-- Field-wise JS spread `\x7b...a, ...b\x7d` on the `metrics` objects:
a field present in `b` overwrites `a`'s. -/
def mergeMetrics (a b : Metrics) : Metrics where
  start := b.start <|> a.start
  «end» := b.«end» <|> a.«end»
  prompt_tokens := b.prompt_tokens <|> a.prompt_tokens
  completion_tokens := b.completion_tokens <|> a.completion_tokens
  tokens := b.tokens <|> a.tokens
  reasoning_tokens := b.reasoning_tokens <|> a.reasoning_tokens

/-- The merged record `TestSpanCollector.insertSpan` stores for a matching
merge: `\x7b...existing, ...span, metadata: \x7b...existing.metadata,
...span.metadata\x7d, metrics: \x7b...existing.metrics,
...span.metrics\x7d\x7d`. -/
def spreadMerge (existing update : SpanData) : SpanData where
  id := update.id
  span_id := update.span_id
  root_span_id := update.root_span_id
  span_parents := update.span_parents <|> existing.span_parents
  created := update.created <|> existing.created
  input := update.input <|> existing.input
  output := update.output <|> existing.output
  error := update.error <|> existing.error
  metadata := mergeAList existing.metadata update.metadata
  metrics := mergeMetrics existing.metrics update.metrics
  span_attributes := update.span_attributes <|> existing.span_attributes
  _is_merge := update._is_merge

/-- Replace the first stored record whose `span_id` matches (the
`findIndex` + in-place update of `TestSpanCollector.insertSpan`); when no
record matches, push the update at the end. -/
def mergeInsert (span : SpanData) : List SpanData → List SpanData
  | [] => [span]
  | s :: rest =>
      if s.span_id = span.span_id then spreadMerge s span :: rest
      else s :: mergeInsert span rest

/-- `TestSpanCollector.insertSpan` from `span-sink.ts`, acting on the
stored list of spans. -/
def insertSpan (spans : List SpanData) (span : SpanData) : List SpanData :=
  if span._is_merge then mergeInsert span spans
  else spans ++ [span]

/-- A node of the tree `spansToTree` assembles (the `SpanTree` interface of
`span-sink.ts`). -/
inductive SpanTree where
  | mk (span_id : String) (root_span_id : String) (name : Option String)
      (type : Option SpanType) (input : Option Val) (output : Option Val)
      (metrics : Metrics) (metadata : List (String × Val))
      (children : List SpanTree)

def SpanTree.span_id : SpanTree → String
  | .mk v _ _ _ _ _ _ _ _ => v

def SpanTree.root_span_id : SpanTree → String
  | .mk _ v _ _ _ _ _ _ _ => v

def SpanTree.name : SpanTree → Option String
  | .mk _ _ v _ _ _ _ _ _ => v

def SpanTree.type : SpanTree → Option SpanType
  | .mk _ _ _ v _ _ _ _ _ => v

def SpanTree.input : SpanTree → Option Val
  | .mk _ _ _ _ v _ _ _ _ => v

def SpanTree.output : SpanTree → Option Val
  | .mk _ _ _ _ _ v _ _ _ => v

def SpanTree.metrics : SpanTree → Metrics
  | .mk _ _ _ _ _ _ v _ _ => v

def SpanTree.metadata : SpanTree → List (String × Val)
  | .mk _ _ _ _ _ _ _ v _ => v

def SpanTree.children : SpanTree → List SpanTree
  | .mk _ _ _ _ _ _ _ _ v => v

/-- The root-record test inside `spansToTree`: `!s.span_parents ||
s.span_parents.length === 0 || s.span_parents[0] === s.span_id`. -/
def isRootSpan (s : SpanData) : Bool :=
  match s.span_parents with
  | none => true
  | some [] => true
  | some (p :: _) => p = s.span_id

/-- The children-map entry for a parent id: spans (in input order) whose
nonempty `span_parents` starts with that id and is not the span itself. -/
def childPred (pid : String) (s : SpanData) : Bool :=
  match s.span_parents with
  | some (p :: _) => p = pid && p ≠ s.span_id
  | _ => false

/-- Pair each element with its position, starting from `n`. -/
def enumList {α : Type} (n : Nat) : List α → List (Nat × α)
  | [] => []
  | x :: l => (n, x) :: enumList (n + 1) l

/-- Children of a parent id paired with their original positions in the
input list (`spans.indexOf` in the source; records are created fresh per
insert, so reference identity coincides with position). -/
def indexedChildren (spans : List SpanData) (pid : String) : List (Nat × SpanData) :=
  (enumList 0 spans).filter (fun p => childPred pid p.2)

/-- The `metrics?.start || 0` sort key. -/
def startKey (s : SpanData) : Int :=
  (s.metrics.start).getD 0

/-- The comparator of `buildNode`: ascending `metrics.start`, ties broken
by original array position. -/
def childLEP (a b : Nat × SpanData) : Prop :=
  startKey a.2 < startKey b.2 ∨ (startKey a.2 = startKey b.2 ∧ a.1 ≤ b.1)

instance : DecidableRel childLEP := fun a b => by
  unfold childLEP
  infer_instance

instance : IsTotal (Nat × SpanData) childLEP where
  total a b := by
    unfold childLEP
    omega

instance : IsTrans (Nat × SpanData) childLEP where
  trans a b c hab hbc := by
    unfold childLEP at hab hbc ⊢
    omega

/-- The sibling list `buildNode` recurses over, sorted as the source sorts
it.  The JS comparator is total and antisymmetric on the distinct original
positions, so the sorted permutation is unique and any correct sort (in
particular the source's stable `Array.prototype.sort`) produces it. -/
def sortedChildren (spans : List SpanData) (pid : String) : List (Nat × SpanData) :=
  (indexedChildren spans pid).insertionSort childLEP

/-- The recursive `buildNode` of `spansToTree`.  The source recursion is
unbounded (it diverges on inputs where a span id repeats along its own
descendant chain); `fuel` bounds the depth and `spansToTree` supplies
`spans.length`, enough for every input on which the source terminates. -/
def buildNode (spans : List SpanData) : Nat → SpanData → SpanTree
  | 0, s =>
      .mk s.span_id s.root_span_id (s.span_attributes.bind (·.name))
        (s.span_attributes.bind (·.type)) s.input s.output s.metrics s.metadata []
  | fuel + 1, s =>
      .mk s.span_id s.root_span_id (s.span_attributes.bind (·.name))
        (s.span_attributes.bind (·.type)) s.input s.output s.metrics s.metadata
        ((sortedChildren spans s.span_id).map (fun p => buildNode spans fuel p.2))

/-- `spansToTree` from `span-sink.ts`. -/
def spansToTree (spans : List SpanData) : Option SpanTree :=
  if spans.isEmpty then none
  else
    match spans.find? isRootSpan with
    | none => none
    | some root => some (buildNode spans spans.length root)

/-- JS `Map.prototype.get` on an insertion-ordered association list. -/
def mapGet {α : Type} (m : List (String × α)) (k : String) : Option α :=
  match m with
  | [] => none
  | (k', v) :: rest => if k' = k then some v else mapGet rest k

/-- JS `Map.prototype.set`: an existing binding is updated in place,
otherwise the new binding is appended. -/
def mapSet {α : Type} (m : List (String × α)) (k : String) (v : α) : List (String × α) :=
  match m with
  | [] => [(k, v)]
  | (k', v') :: rest => if k' = k then (k, v) :: rest else (k', v') :: mapSet rest k v

/-- JS `Map.prototype.delete`. -/
def mapDelete {α : Type} (m : List (String × α)) (k : String) : List (String × α) :=
  m.filter (fun p => p.1 ≠ k)

/-- JS `Set.prototype.add` on an insertion-ordered element list. -/
def setAdd (s : List String) (x : String) : List String :=
  if x ∈ s then s else s ++ [x]

/-- The `function` member of an accumulated tool call
(`llmToolCalls` entry in `event-processor.ts`). -/
structure ToolFn where
  name : String
  arguments : String

/-- An accumulated tool call tracked per message id; `type` is always the
literal "function". -/
structure ToolCall where
  id : String
  type : String
  function : ToolFn

/-- `SessionState` from `event-processor.ts` (the version with sub-agent
and reasoning tracking that the specification describes). -/
structure SessionState where
  rootSpanId : String
  effectiveRootSpanId : String
  currentTurnSpanId : Option String := none
  turnNumber : Nat := 0
  toolCallCount : Nat := 0
  startTime : Int
  currentTurnStartTime : Option Int := none
  currentInput : Option String := none
  currentOutput : Option String := none
  currentMessageId : Option String := none
  parentSessionId : Option String := none
  parentRootSpanId : Option String := none
  parentTurnSpanId : Option String := none
  subagentTitle : Option String := none
  currentAssistantMessageId : Option String := none
  llmOutputParts : List (String × String) := []
  llmToolCalls : List (String × List ToolCall) := []
  llmReasoningParts : List (String × String) := []
  processedLlmMessages : List String := []
  toolStartTimes : List (String × Int) := []
  toolCallMessageIds : List (String × String) := []

/-- `EventProcessorConfig` from `event-processor.ts`. -/
structure EventProcessorConfig where
  projectName : String
  worktree : Option String := none
  directory : Option String := none

/-- The mutable state of one `EventProcessor` paired with its sink:
`sessionStates`, the journal of records passed to `spanSink.insertSpan`
(in call order), and the fresh-id counter modelling `crypto.randomUUID`. -/
structure ProcState where
  sessionStates : List (String × SessionState) := []
  emitted : List SpanData := []
  nextId : Nat := 0

/-- Deterministic model of `generateUUID`. -/
def generateUUID (n : Nat) : String :=
  "uuid-" ++ toString n

/-- Record one `spanSink.insertSpan` call. -/
def emit (st : ProcState) (s : SpanData) : ProcState :=
  { st with emitted := st.emitted ++ [s] }

/-- Regex character class `\s` (the common whitespace code points). -/
def isSpaceRE (c : Char) : Bool :=
  c = ' ' || c = '\t' || c = '\n' || c = '\r' || c = '\x0b' || c = '\x0c'

/-- Regex character class `\w`. -/
def isWordRE (c : Char) : Bool :=
  c.isAlphanum || c = '_'

/-- Regex `.` without the dot-all flag (anything but a line terminator). -/
def isDotRE (c : Char) : Bool :=
  c ≠ '\n' && c ≠ '\r'

/-- Match the tail `\s+\(@(\w+)\s+subagent\)$` of the sub-agent title
pattern, returning the captured agent name.  Each quantified class is
disjoint from what follows it, so greedy matching is deterministic. -/
def subagentTail (cs : List Char) : Option String :=
  let sp1 := cs.takeWhile isSpaceRE
  let r1 := cs.dropWhile isSpaceRE
  if sp1.isEmpty then none
  else
    match r1 with
    | '(' :: '@' :: r2 =>
        let agent := r2.takeWhile isWordRE
        let r3 := r2.dropWhile isWordRE
        if agent.isEmpty then none
        else
          let sp2 := r3.takeWhile isSpaceRE
          let r4 := r3.dropWhile isSpaceRE
          if sp2.isEmpty then none
          else if r4 = "subagent)".toList then some (String.mk agent) else none
    | _ => none

/-- Lazy scan for `^(.+?)` : try the shortest description prefix whose
remainder matches `subagentTail`; a character `.` cannot match aborts the
whole match. -/
def splitSubagent : List Char → List Char → Option (String × String)
  | _, [] => none
  | descRev, c :: rest =>
      if isDotRE c then
        match subagentTail rest with
        | some agent => some (String.mk (c :: descRev).reverse, agent)
        | none => splitSubagent (c :: descRev) rest
      else none

/-- The session-title match `title.match(/^(.+?)\s+\(@(\w+)\s+subagent\)$/)`
of `handleSessionCreated`, returning (description, agent name). -/
def parseSubagentTitle (s : String) : Option (String × String) :=
  splitSubagent [] s.toList

/-- Dynamic `info` object of `session.created` / `message.updated` event
properties (one loose JS object; each handler reads the fields it needs). -/
structure TimeObj where
  created : Option Int := none
  completed : Option Int := none
  «end» : Option Int := none

/-- The `tokens` object of an assistant message. -/
structure TokensObj where
  input : Option Int := none
  output : Option Int := none
  reasoning : Option Int := none

/-- Dynamic `info` payload object. -/
structure InfoObj where
  id : Option String := none
  parentID : Option String := none
  title : Option String := none
  role : Option String := none
  sessionID : Option String := none
  time : Option TimeObj := none
  tokens : Option TokensObj := none
  providerID : Option String := none
  modelID : Option String := none

/-- The `state` object of a tool part (`partState?.input`). -/
structure PartState where
  input : Option (List (String × Val)) := none

/-- Dynamic `part` payload object of `message.part.updated`. -/
structure PartObj where
  sessionID : Option String := none
  messageID : Option String := none
  type : Option String := none
  text : Option String := none
  time : Option TimeObj := none
  callID : Option String := none
  tool : Option String := none
  state : Option PartState := none

/-- The `data` member of a `session.error` payload's error object. -/
structure ErrData where
  message : Option String := none

/-- The error object of a `session.error` payload. -/
structure ErrObj where
  name : Option String := none
  data : Option ErrData := none

/-- Dynamic `event.properties` object. -/
structure EventProps where
  sessionID : Option String := none
  id : Option String := none
  info : Option InfoObj := none
  part : Option PartObj := none
  error : Option ErrObj := none

/-- A typed OpenCode event: its `type` tag and loose properties. -/
structure Event where
  type : String
  properties : EventProps

/-- The `model` argument of the chat-message hook. -/
structure ModelRef where
  providerID : Option String := none
  modelID : Option String := none
/-- The root span record emitted for a regular (top-level) session. -/
def regularRootSpan (cfg : EventProcessorConfig) (sid rootSpanId : String) (now : Int) :
    SpanData :=
  { id := rootSpanId
    span_id := rootSpanId
    root_span_id := rootSpanId
    created := some now
    metadata :=
      [("session_id", .str sid)] ++
        (match cfg.worktree with
         | some w => [("workspace", .str w)]
         | none => []) ++
        (match cfg.directory with
         | some d => [("directory", .str d)]
         | none => [])
    metrics := { start := some now }
    span_attributes := some { name := some ("OpenCode: " ++ cfg.projectName), type := some .task } }

/-- The fresh `SessionState` of a regular (top-level) session. -/
def regularSessionState (rootSpanId : String) (now : Int) : SessionState :=
  { rootSpanId
    effectiveRootSpanId := rootSpanId
    turnNumber := 0
    toolCallCount := 0
    startTime := now }

/-- Regular (top-level) half of `handleSessionCreated`: reached when the
event has no usable parent link. -/
def createRegularSession (cfg : EventProcessorConfig) (st : ProcState)
    (sessionID : Option String) (now : Int) : ProcState :=
  match truthy? sessionID with
  | none => st
  | some sid =>
      let rootSpanId := generateUUID st.nextId
      emit
        { st with
          sessionStates := mapSet st.sessionStates sid (regularSessionState rootSpanId now)
          nextId := st.nextId + 1 }
        (regularRootSpan cfg sid rootSpanId now)

/-- The sub-agent display title: the session title rewritten through the
`"<description> (@<agent> subagent)"` pattern, the raw title when the
pattern does not match, "Subagent" when the title is falsy. -/
def subagentTitleOf (sessionTitle : Option String) : String :=
  match truthy? sessionTitle with
  | none => "Subagent"
  | some t =>
      match parseSubagentTitle t with
      | some (description, agentType) => agentType ++ ": " ++ description
      | none => t

/-- The `SessionState` of a child (sub-agent) session, linked to its
parent. -/
def childSessionState (parentState : SessionState) (pid title rootSpanId : String)
    (now : Int) : SessionState :=
  { rootSpanId
    effectiveRootSpanId := parentState.effectiveRootSpanId
    turnNumber := 0
    toolCallCount := 0
    startTime := now
    parentSessionId := some pid
    parentRootSpanId := some parentState.effectiveRootSpanId
    parentTurnSpanId := parentState.currentTurnSpanId
    subagentTitle := some title }

/-- The root span record emitted for a child (sub-agent) session: its
`root_span_id` is the parent's effective root and its `span_parents` is
the parent's open turn span (absent when the parent has no open turn). -/
def childRootSpan (parentState : SessionState) (sid pid title rootSpanId : String)
    (now : Int) : SpanData :=
  { id := rootSpanId
    span_id := rootSpanId
    root_span_id := parentState.effectiveRootSpanId
    span_parents :=
      match truthy? parentState.currentTurnSpanId with
      | some t => some [t]
      | none => none
    created := some now
    metadata :=
      [("session_id", .str sid), ("parent_session_id", .str pid), ("is_subagent", .bool true)]
    metrics := { start := some now }
    span_attributes := some { name := some title, type := some .task } }

/-- `handleSessionCreated` from `event-processor.ts`: the child (sub-agent)
path when both the session id and the parent id are truthy and the parent
state exists; otherwise the regular path. -/
def handleSessionCreated (cfg : EventProcessorConfig) (st : ProcState)
    (info : Option InfoObj) (now : Int) : ProcState :=
  let sessionID := info.bind (·.id)
  let parentSessionID := info.bind (·.parentID)
  match truthy? sessionID, truthy? parentSessionID with
  | some sid, some pid =>
      (match mapGet st.sessionStates pid with
       | some parentState =>
           let title := subagentTitleOf (info.bind (·.title))
           let rootSpanId := generateUUID st.nextId
           emit
             { st with
               sessionStates :=
                 mapSet st.sessionStates sid (childSessionState parentState pid title rootSpanId now)
               nextId := st.nextId + 1 }
             (childRootSpan parentState sid pid title rootSpanId now)
       | none => createRegularSession cfg st sessionID now)
  | _, _ => createRegularSession cfg st sessionID now

/-- Render an accumulated tool call as the dynamic value embedded in an
LLM span's output. -/
def toolCallVal (tc : ToolCall) : Val :=
  .obj
    [("id", .str tc.id), ("type", .str tc.type),
     ("function", .obj [("name", .str tc.function.name), ("arguments", .str tc.function.arguments)])]

/-- Replace the first accumulated tool call with a matching call id
(`findIndex` + in-place assignment in `handleMessagePartUpdated`). -/
def replaceFirstToolCall (callID : String) (tc : ToolCall) : List ToolCall → List ToolCall
  | [] => []
  | t :: rest =>
      if t.id = callID then tc :: rest else t :: replaceFirstToolCall callID tc rest

/-- `handleMessagePartUpdated` from `event-processor.ts`. -/
def handleMessagePartUpdated (st : ProcState) (props : EventProps) : ProcState :=
  match props.part with
  | none => st
  | some part =>
      match truthy? part.sessionID with
      | none => st
      | some psid =>
          match mapGet st.sessionStates psid with
          | none => st
          | some state =>
              if part.type = some "text" ∧ (truthy? part.text).isSome then
                let text := jsOrS part.text ""
                let state1 :=
                  match truthy? part.messageID with
                  | some mid => { state with llmOutputParts := mapSet state.llmOutputParts mid text }
                  | none => state
                let state2 :=
                  if (truthyN (part.time.bind (·.«end»))).isSome ∧
                      (truthy? state1.currentTurnSpanId).isSome then
                    { state1 with currentOutput := some text }
                  else state1
                { st with sessionStates := mapSet st.sessionStates psid state2 }
              else if part.type = some "tool" ∧ (truthy? part.messageID).isSome then
                match truthy? part.messageID, truthy? part.callID, truthy? part.tool,
                    part.state.bind (·.input) with
                | some mid, some callID, some tool, some input =>
                    let toolCalls := (mapGet state.llmToolCalls mid).getD []
                    let tc : ToolCall :=
                      { id := callID
                        type := "function"
                        function := { name := tool, arguments := stringifyVal (.obj input) } }
                    let newCalls :=
                      if toolCalls.any (fun t => t.id == callID) then
                        replaceFirstToolCall callID tc toolCalls
                      else toolCalls ++ [tc]
                    let state1 :=
                      { state with
                        llmToolCalls := mapSet state.llmToolCalls mid newCalls
                        toolCallMessageIds := mapSet state.toolCallMessageIds callID mid }
                    { st with sessionStates := mapSet st.sessionStates psid state1 }
                | _, _, _, _ => st
              else if part.type = some "reasoning" ∧ (truthy? part.messageID).isSome then
                match truthy? part.messageID, truthy? part.text with
                | some mid, some text =>
                    { st with
                      sessionStates :=
                        mapSet st.sessionStates psid
                          { state with llmReasoningParts := mapSet state.llmReasoningParts mid text } }
                | _, _ => st
              else st

/-- The assistant-message payload of an LLM span: role and accumulated
content, plus accumulated tool calls and reasoning when present. -/
def llmAssistantMessage (state : SessionState) (mid : String) : List (String × Val) :=
  [("role", .str "assistant"), ("content", .str ((mapGet state.llmOutputParts mid).getD ""))] ++
    (match mapGet state.llmToolCalls mid with
     | some tcs =>
         if tcs.length > 0 then [("tool_calls", .list (tcs.map toolCallVal))] else []
     | none => []) ++
    (match truthy? (mapGet state.llmReasoningParts mid) with
     | some r => [("reasoning", .list [.obj [("id", .str "reasoning"), ("content", .str r)]])]
     | none => [])

/-- The LLM span record emitted by `handleMessageUpdated` for a completed
assistant message. -/
def llmSpanRecord (state : SessionState) (turnId mid llmSpanId : String) (info : InfoObj) :
    SpanData :=
  let inputTokens := (info.tokens.bind (·.input)).getD 0
  let outputTokens := (info.tokens.bind (·.output)).getD 0
  let reasoningTokens := (info.tokens.bind (·.reasoning)).getD 0
  let providerID := jsOrS info.providerID "unknown"
  let modelID := jsOrS info.modelID "unknown"
  let modelName := providerID ++ "/" ++ modelID
  let llmInput : List Val :=
    match truthy? state.currentInput with
    | some inp => [.obj [("role", .str "user"), ("content", .str inp)]]
    | none => []
  { id := llmSpanId
    span_id := llmSpanId
    root_span_id := state.effectiveRootSpanId
    span_parents := some [turnId]
    created := info.time.bind (·.created)
    input := if llmInput.length > 0 then some (.list llmInput) else none
    output := some (.list [.obj (llmAssistantMessage state mid)])
    metrics :=
      { start := info.time.bind (·.created)
        «end» := info.time.bind (·.completed)
        prompt_tokens := some inputTokens
        completion_tokens := some outputTokens
        tokens := some (inputTokens + outputTokens + reasoningTokens)
        reasoning_tokens := truthyN (some reasoningTokens) }
    metadata :=
      [("model", .str modelName), ("provider", .str providerID), ("message_id", .str mid)]
    span_attributes := some { name := some modelName, type := some .llm } }

/-- `handleMessageUpdated` from `event-processor.ts`: emits the LLM span
for a completed assistant message. -/
def handleMessageUpdated (st : ProcState) (props : EventProps) : ProcState :=
  match props.info with
  | none => st
  | some info =>
      if info.role ≠ some "assistant" then st
      else
        match truthy? info.sessionID, truthy? info.id with
        | some sid, some mid =>
            (match mapGet st.sessionStates sid with
             | none => st
             | some state =>
                 match truthyN (info.time.bind (·.completed)) with
                 | none => st
                 | some _ =>
                     if mid ∈ state.processedLlmMessages then st
                     else
                       match truthy? state.currentTurnSpanId with
                       | none => st
                       | some turnId =>
                           let state1 :=
                             { state with
                               processedLlmMessages := setAdd state.processedLlmMessages mid }
                           emit
                             { st with
                               sessionStates := mapSet st.sessionStates sid state1
                               nextId := st.nextId + 1 }
                             (llmSpanRecord state turnId mid (generateUUID st.nextId) info))
        | _, _ => st

/-- The merge record closing a turn span (`output` is the captured
assistant text, `error` is set only by the session-error path). -/
def turnCloseSpan (state : SessionState) (turnId : String) (err : Option String) (now : Int) :
    SpanData :=
  { id := turnId
    span_id := turnId
    root_span_id := state.effectiveRootSpanId
    output := (truthy? state.currentOutput).map Val.str
    error := err
    metrics := { «end» := some now }
    _is_merge := true }

/-- The merge record closing a root span cleanly, with the final turn and
tool-call totals. -/
def rootFinalSpan (state : SessionState) (now : Int) : SpanData :=
  { id := state.rootSpanId
    span_id := state.rootSpanId
    root_span_id := state.effectiveRootSpanId
    metrics := { «end» := some now }
    metadata :=
      [("total_turns", .num state.turnNumber), ("total_tool_calls", .num state.toolCallCount)]
    _is_merge := true }

/-- The merge record closing a root span after a session error: the
formatted error string plus `error_type` in the metadata. -/
def rootErrorSpan (state : SessionState) (errorString errorName : String) (now : Int) :
    SpanData :=
  { id := state.rootSpanId
    span_id := state.rootSpanId
    root_span_id := state.effectiveRootSpanId
    error := some errorString
    metrics := { «end» := some now }
    metadata :=
      [("total_turns", .num state.turnNumber), ("total_tool_calls", .num state.toolCallCount),
       ("error_type", .str errorName)]
    _is_merge := true }

/-- `handleSessionIdle` from `event-processor.ts`: closes the open turn and,
for a child (sub-agent) session, also closes its root span and removes the
state. -/
def handleSessionIdle (st : ProcState) (sessionID : Option String) (now : Int) : ProcState :=
  match truthy? sessionID with
  | none => st
  | some sessionKey =>
      match mapGet st.sessionStates sessionKey with
      | none => st
      | some state =>
          let isChildSession := (truthy? state.parentSessionId).isSome
          let st1 :=
            match truthy? state.currentTurnSpanId with
            | some turnId =>
                let state1 :=
                  { state with
                    currentTurnSpanId := none
                    currentInput := none
                    currentOutput := none
                    currentTurnStartTime := none }
                emit
                  { st with sessionStates := mapSet st.sessionStates sessionKey state1 }
                  (turnCloseSpan state turnId none now)
            | none => st
          if isChildSession ∧ state.rootSpanId ≠ "" then
            emit { st1 with sessionStates := mapDelete st1.sessionStates sessionKey }
              (rootFinalSpan state now)
          else st1

/-- `handleSessionDeleted` from `event-processor.ts`: closes the open turn
(if any) and the root span via merge records and removes the state. -/
def handleSessionDeleted (st : ProcState) (sessionID : Option String) (now : Int) : ProcState :=
  match truthy? sessionID with
  | none => st
  | some sessionKey =>
      match mapGet st.sessionStates sessionKey with
      | none => st
      | some state =>
          let st1 :=
            match truthy? state.currentTurnSpanId with
            | some turnId => emit st (turnCloseSpan state turnId none now)
            | none => st
          emit { st1 with sessionStates := mapDelete st1.sessionStates sessionKey }
            (rootFinalSpan state now)

/-- The error name of a `session.error` payload:
`errorObj?.name || "UnknownError"`. -/
def errorNameOf (props : EventProps) : String :=
  jsOrS (props.error.bind (·.name)) "UnknownError"

/-- The error message of a `session.error` payload:
`errorObj?.data?.message || errorName`. -/
def errorMessageOf (props : EventProps) : String :=
  jsOrS ((props.error.bind (·.data)).bind (·.message)) (errorNameOf props)

/-- The formatted error string `"<message>\n\ntype: <name>"`. -/
def errorStringOf (props : EventProps) : String :=
  errorMessageOf props ++ "\n\ntype: " ++ errorNameOf props

/-- `handleSessionError` from `event-processor.ts`: formats the error
string, closes the open turn (if any) and the root span with it, and
removes the state. -/
def handleSessionError (st : ProcState) (props : EventProps) (now : Int) : ProcState :=
  match truthy? props.sessionID with
  | none => st
  | some sessionKey =>
      match mapGet st.sessionStates sessionKey with
      | none => st
      | some state =>
          let st1 :=
            match truthy? state.currentTurnSpanId with
            | some turnId => emit st (turnCloseSpan state turnId (some (errorStringOf props)) now)
            | none => st
          emit { st1 with sessionStates := mapDelete st1.sessionStates sessionKey }
            (rootErrorSpan state (errorStringOf props) (errorNameOf props) now)

/-- The fresh turn span opened by `processChatMessage` for the
already-incremented turn number. -/
def newTurnSpan (state : SessionState) (newTurnId : String) (turnNumber : Nat)
    (userMessage : String) (model : Option ModelRef) (now : Int) : SpanData :=
  { id := newTurnId
    span_id := newTurnId
    root_span_id := state.effectiveRootSpanId
    span_parents := some [state.rootSpanId]
    created := some now
    input := (truthy? (some userMessage)).map Val.str
    metadata :=
      [("turn_number", .num turnNumber)] ++
        (match model with
         | some m =>
             [("model",
               .str ((m.providerID.getD "undefined") ++ "/" ++ (m.modelID.getD "undefined")))]
         | none => [])
    metrics := { start := some now }
    span_attributes :=
      some { name := some ("Turn " ++ toString turnNumber), type := some .task } }

/-- `processChatMessage` from `event-processor.ts` (the chat.message hook):
force-closes an open turn, then opens a new turn span. -/
def processChatMessage (st : ProcState) (sessionID : String) (userMessage : String)
    (model : Option ModelRef) (now : Int) : ProcState :=
  match mapGet st.sessionStates sessionID with
  | none => st
  | some state =>
      let st1 :=
        match truthy? state.currentTurnSpanId with
        | some turnId => emit st (turnCloseSpan state turnId none now)
        | none => st
      let newTurnId := generateUUID st.nextId
      let state1 :=
        { state with
          turnNumber := state.turnNumber + 1
          currentTurnSpanId := some newTurnId
          currentOutput := none
          currentInput := some userMessage
          currentTurnStartTime := some now }
      emit
        { st1 with
          sessionStates := mapSet st1.sessionStates sessionID state1
          nextId := st.nextId + 1 }
        (newTurnSpan state newTurnId (state.turnNumber + 1) userMessage model now)

/-- `processToolExecuteBefore` from `event-processor.ts`. -/
def processToolExecuteBefore (st : ProcState) (sessionID : String) (callID : String)
    (now : Int) : ProcState :=
  match mapGet st.sessionStates sessionID with
  | none => st
  | some state =>
      { st with
        sessionStates :=
          mapSet st.sessionStates sessionID
            { state with toolStartTimes := mapSet state.toolStartTimes callID now } }

/-- JS `String.prototype.split` with a single-character separator. -/
def splitOnSep (sep : Char) : List Char → List (List Char)
  | [] => [[]]
  | c :: rest =>
      let r := splitOnSep sep rest
      if c = sep then [] :: r
      else
        match r with
        | h :: t => (c :: h) :: t
        | [] => [[c]]

/-- `formatToolName` from `event-processor.ts` (string lengths count
characters where the source counts UTF-16 units; identical on the BMP). -/
def formatToolName (tool : String) (title : Option String) : String :=
  match truthy? title with
  | none => tool
  | some t =>
      let displayTitle :=
        if (tool = "read" ∨ tool = "edit") ∧ t.toList.contains '/' then
          jsOrS ((splitOnSep '/' t.toList).getLast?.map String.mk) t
        else t
      let shortTitle :=
        if displayTitle.length > 50 then String.mk (displayTitle.toList.take 47) ++ "..."
        else displayTitle
      tool ++ ": " ++ shortTitle

/-- The tool span record emitted by `processToolExecuteAfter`: built from
the pre-delete state (start time and reasoning are read before their map
entries are removed). -/
def toolSpanRecord (state : SessionState) (turnId callID tool title output : String)
    (metadata : Option Val) (nextId : Nat) (now : Int) : SpanData :=
  let reasoning :=
    match truthy? (mapGet state.toolCallMessageIds callID) with
    | some mid => mapGet state.llmReasoningParts mid
    | none => none
  { id := generateUUID (nextId + 1)
    span_id := generateUUID nextId
    root_span_id := state.effectiveRootSpanId
    span_parents := some [turnId]
    input := metadata
    output := some (.str (String.mk (output.toList.take 10000)))
    metadata :=
      [("tool_name", .str tool), ("call_id", .str callID), ("title", .str title)] ++
        (match truthy? reasoning with
         | some r => [("reasoning", .str r)]
         | none => [])
    metrics := { start := mapGet state.toolStartTimes callID, «end» := some now }
    span_attributes := some { name := formatToolName tool (some title), type := some .tool } }

/-- `processToolExecuteAfter` from `event-processor.ts`: emits a tool span
when the session exists and a turn is open, else drops the call. -/
def processToolExecuteAfter (st : ProcState) (sessionID : String) (callID : String)
    (tool : String) (title : String) (output : String) (metadata : Option Val)
    (now : Int) : ProcState :=
  match mapGet st.sessionStates sessionID with
  | none => st
  | some state =>
      match truthy? state.currentTurnSpanId with
      | none => st
      | some turnId =>
          let state1 :=
            { state with
              toolCallCount := state.toolCallCount + 1
              toolStartTimes := mapDelete state.toolStartTimes callID
              toolCallMessageIds := mapDelete state.toolCallMessageIds callID }
          emit
            { st with
              sessionStates := mapSet st.sessionStates sessionID state1
              nextId := st.nextId + 2 }
            (toolSpanRecord state turnId callID tool title output metadata st.nextId now)

/-- `processEvent` from `event-processor.ts`: dispatch on the event type
(the session id is `props.sessionID || info?.id || props.id`). -/
def processEvent (cfg : EventProcessorConfig) (st : ProcState) (ev : Event) (now : Int) :
    ProcState :=
  let props := ev.properties
  let info := props.info
  let sessionID := jsOr? props.sessionID (jsOr? (info.bind (·.id)) props.id)
  if ev.type = "session.created" then handleSessionCreated cfg st info now
  else if ev.type = "message.part.updated" then handleMessagePartUpdated st props
  else if ev.type = "message.updated" then handleMessageUpdated st props
  else if ev.type = "session.idle" then handleSessionIdle st sessionID now
  else if ev.type = "session.deleted" then handleSessionDeleted st sessionID now
  else if ev.type = "session.error" then handleSessionError st props now
  else st

/-- Exact condition under which the source `handleMessageUpdated` raises:
every guard passes (assistant role, truthy session and message ids, live
state, truthy completion timestamp, unprocessed id, open turn) but
`info.time.created` is absent, so `new Date(undefined).toISOString()`
throws `RangeError: Invalid time value` while building the LLM span's
`created` field. -/
def handleMessageUpdatedThrows (st : ProcState) (props : EventProps) : Bool :=
  match props.info with
  | none => false
  | some info =>
      if info.role ≠ some "assistant" then false
      else
        match truthy? info.sessionID, truthy? info.id with
        | some sid, some mid =>
            (match mapGet st.sessionStates sid with
             | none => false
             | some state =>
                 match truthyN (info.time.bind (·.completed)) with
                 | none => false
                 | some _ =>
                     if mid ∈ state.processedLlmMessages then false
                     else
                       match truthy? state.currentTurnSpanId with
                       | none => false
                       | some _ => (info.time.bind (·.created)).isNone)
        | _, _ => false

/-- Whether the source `processEvent` raises on this event in this state
(see `handleMessageUpdatedThrows`; no other handler can throw). -/
def processEventThrows (st : ProcState) (ev : Event) : Bool :=
  if ev.type = "message.updated" then handleMessageUpdatedThrows st ev.properties
  else false

/-- Deliver a list of events (each with the clock value at its delivery)
in order. -/
def runEvents (cfg : EventProcessorConfig) (st : ProcState) (evs : List (Event × Int)) :
    ProcState :=
  evs.foldl (fun s p => processEvent cfg s p.1 p.2) st

/-! Helper lemmas about the association-list operations. -/

theorem mapGet_mapSet_self {α : Type} (m : List (String × α)) (k : String) (v : α) :
    mapGet (mapSet m k v) k = some v := by
  induction m with
  | nil => simp [mapSet, mapGet]
  | cons p rest ih =>
      obtain ⟨k', v'⟩ := p
      by_cases h : k' = k
      · simp [mapSet, mapGet, h]
      · simp [mapSet, mapGet, h, ih]

theorem mapGet_mapSet_ne {α : Type} (m : List (String × α)) (k k' : String) (v : α)
    (h : k ≠ k') : mapGet (mapSet m k v) k' = mapGet m k' := by
  induction m with
  | nil => simp [mapSet, mapGet, h]
  | cons p rest ih =>
      obtain ⟨k'', v''⟩ := p
      by_cases h2 : k'' = k
      · subst h2
        simp [mapSet, mapGet, h]
      · simp [mapSet, mapGet, h2, ih]

theorem lookup_append {α : Type} [BEq α] {β : Type} (l1 l2 : List (α × β)) (k : α) :
    (l1 ++ l2).lookup k = ((l1.lookup k).or (l2.lookup k)) := by
  induction l1 with
  | nil => simp [List.lookup]
  | cons p rest ih =>
      by_cases h : k == p.1
      · simp [List.lookup, h]
      · simp [List.lookup, h, ih]

theorem lookup_map_withKey (a b : List (String × Val)) (k : String) :
    ((a.map (fun p =>
        match b.lookup p.1 with
        | some v => (p.1, v)
        | none => p)).lookup k) =
      (a.lookup k).map (fun v => (b.lookup k).getD v) := by
  induction a with
  | nil => simp [List.lookup]
  | cons p rest ih =>
      obtain ⟨k', v'⟩ := p
      by_cases h : k == k'
      · have hk : k = k' := by simpa using h
        subst hk
        cases hb : b.lookup k <;> simp [List.lookup, hb]
      · cases hb : b.lookup k' <;> simp [List.lookup, hb, h, ih]

theorem lookup_filter_key (b : List (String × Val)) (q : String → Bool) (k : String) :
    ((b.filter (fun p => q p.1)).lookup k) = if q k then b.lookup k else none := by
  induction b with
  | nil => simp [List.lookup]
  | cons p rest ih =>
      obtain ⟨k', v'⟩ := p
      by_cases hq : q k'
      · by_cases h : k == k'
        · have hk : k = k' := by simpa using h
          subst hk
          simp [List.lookup, hq, h]
        · simp [List.lookup, hq, h, ih]
      · by_cases h : k == k'
        · have hk : k = k' := by simpa using h
          subst hk
          simp [List.lookup, hq, ih]
        · simp [List.lookup, hq, h, ih]

/-- Key-wise correctness of the metadata spread: the update's binding wins,
bindings only in the existing record survive. -/
theorem mergeAList_lookup (a b : List (String × Val)) (k : String) :
    (mergeAList a b).lookup k = ((b.lookup k).or (a.lookup k)) := by
  unfold mergeAList
  rw [lookup_append, lookup_map_withKey,
    lookup_filter_key b (fun x => (a.lookup x).isNone) k]
  cases ha : a.lookup k <;> cases hb : b.lookup k <;> simp [ha, hb]

theorem mergeInsert_found (span : SpanData) (pre post : List SpanData) (ex : SpanData)
    (hpre : ∀ s ∈ pre, s.span_id ≠ span.span_id) (hex : ex.span_id = span.span_id) :
    mergeInsert span (pre ++ ex :: post) = pre ++ spreadMerge ex span :: post := by
  induction pre with
  | nil => simp [mergeInsert, hex]
  | cons s rest ih =>
      have hs : s.span_id ≠ span.span_id := hpre s (by simp)
      simp only [List.cons_append, mergeInsert, hs, if_neg hs]
      exact congrArg (s :: ·) (ih (fun x hx => hpre x (by simp [hx])))

theorem mergeInsert_notfound (span : SpanData) (spans : List SpanData)
    (h : ∀ s ∈ spans, s.span_id ≠ span.span_id) :
    mergeInsert span spans = spans ++ [span] := by
  induction spans with
  | nil => simp [mergeInsert]
  | cons s rest ih =>
      have hs : s.span_id ≠ span.span_id := h s (by simp)
      simp only [mergeInsert, hs, if_neg hs, List.cons_append]
      exact congrArg (s :: ·) (ih (fun x hx => h x (by simp [hx])))

/-- C2: for the in-memory collector's `insertSpan` called with a record
whose merge flag is set: when a stored record with the same `span_id`
exists (the first such, at its position), it is replaced in place by the
spread merge — top-level fields present in the update overwrite the
existing ones, while `metadata` and `metrics` are merged key-wise with the
update's keys winning and keys only in the existing record preserved — and
no new record is added (the stored list keeps its length); when no stored
record matches, the update is appended as a fresh record. -/
theorem insertSpan_merge_spec (spans : List SpanData) (span : SpanData)
    (hm : span._is_merge = true) :
    (∀ pre ex post, spans = pre ++ ex :: post →
        (∀ s ∈ pre, s.span_id ≠ span.span_id) → ex.span_id = span.span_id →
        insertSpan spans span = pre ++ spreadMerge ex span :: post ∧
        (insertSpan spans span).length = spans.length ∧
        (spreadMerge ex span).input = (span.input).or ex.input ∧
        (spreadMerge ex span).output = (span.output).or ex.output ∧
        (spreadMerge ex span).error = (span.error).or ex.error ∧
        (spreadMerge ex span).span_parents = (span.span_parents).or ex.span_parents ∧
        (spreadMerge ex span).span_attributes = (span.span_attributes).or ex.span_attributes ∧
        (spreadMerge ex span).span_id = span.span_id ∧
        (∀ k, (spreadMerge ex span).metadata.lookup k =
            ((span.metadata.lookup k).or (ex.metadata.lookup k))) ∧
        (spreadMerge ex span).metrics.start = (span.metrics.start).or ex.metrics.start ∧
        (spreadMerge ex span).metrics.«end» = (span.metrics.«end»).or ex.metrics.«end» ∧
        (spreadMerge ex span).metrics.tokens = (span.metrics.tokens).or ex.metrics.tokens) ∧
    ((∀ s ∈ spans, s.span_id ≠ span.span_id) → insertSpan spans span = spans ++ [span]) := by
  constructor
  · intro pre ex post hdec hpre hex
    subst hdec
    refine ⟨?_, ?_, ?_, ?_, ?_, ?_, ?_, ?_, ?_, ?_, ?_, ?_⟩
    · simp only [insertSpan, hm, if_pos]
      exact mergeInsert_found span pre post ex hpre hex
    · simp only [insertSpan, hm, if_pos]
      rw [mergeInsert_found span pre post ex hpre hex]
      simp
    · cases h : span.input <;> simp [spreadMerge, h, Option.or]
    · cases h : span.output <;> simp [spreadMerge, h, Option.or]
    · cases h : span.error <;> simp [spreadMerge, h, Option.or]
    · cases h : span.span_parents <;> simp [spreadMerge, h, Option.or]
    · cases h : span.span_attributes <;> simp [spreadMerge, h, Option.or]
    · simp [spreadMerge]
    · intro k
      exact mergeAList_lookup ex.metadata span.metadata k
    · cases h : span.metrics.start <;> simp [spreadMerge, mergeMetrics, h, Option.or]
    · cases h : span.metrics.«end» <;> simp [spreadMerge, mergeMetrics, h, Option.or]
    · cases h : span.metrics.tokens <;> simp [spreadMerge, mergeMetrics, h, Option.or]
  · intro h
    simp only [insertSpan, hm, if_pos]
    exact mergeInsert_notfound span spans h

/-- Existing stored record used to exercise the merge path of `insertSpan`. -/
def c2Existing : SpanData :=
  { id := "a", span_id := "a", root_span_id := "r", output := some (.str "old"),
    metadata := [("x", .num 1), ("y", .num 2)], metrics := { start := some 5 } }

/-- Merge update used to exercise `insertSpan`. -/
def c2Update : SpanData :=
  { id := "a", span_id := "a", root_span_id := "r", output := some (.str "new"),
    metadata := [("y", .num 9), ("z", .num 3)], metrics := { «end» := some 7 },
    _is_merge := true }

/-- A stored record with an unrelated span id. -/
def c2Other : SpanData := { id := "b", span_id := "b", root_span_id := "r" }

/-- Witness for the merge-or-insert specification at concrete records. -/
theorem insertSpan_merge_spec_witness :
    insertSpan [c2Other, c2Existing] c2Update = [c2Other, spreadMerge c2Existing c2Update] ∧
    insertSpan [c2Other] c2Update = [c2Other, c2Update] := by
  constructor
  · exact ((insertSpan_merge_spec [c2Other, c2Existing] c2Update rfl).1
      [c2Other] c2Existing [] rfl (by decide) rfl).1
  · exact (insertSpan_merge_spec [c2Other] c2Update rfl).2 (by decide)

/-- Configuration used by the concrete session-creation scenarios. -/
def c5Config : EventProcessorConfig := { projectName := "p" }

/-- A session.created event whose parent reference names a session with no
state. -/
def c5Event : Event :=
  { type := "session.created",
    properties := { info := some { id := some "child", parentID := some "ghost" } } }

/-- C5 counterexample: delivering a session.created event with an unknown
parent reference to a fresh processor creates a SessionState for the child
id and emits a root span — the child is not dropped. -/
theorem c5_counterexample :
    (mapGet (processEvent c5Config {} c5Event 5).sessionStates "child").isSome = true ∧
    (processEvent c5Config {} c5Event 5).emitted.length = 1 := by
  exact ⟨rfl, rfl⟩

/-- C5 (amended): for every session.created event carrying a parent
reference whose parent SessionState does not exist, the parent link is
ignored and the handler falls through to regular top-level creation: a
SessionState keyed by the child id is created whose `effectiveRootSpanId`
is its own fresh root span id (no parent-link fields), and a regular root
span is emitted whose `root_span_id` is its own span id with no
`span_parents`. -/
theorem handleSessionCreated_orphan_parent (cfg : EventProcessorConfig) (st : ProcState)
    (info : InfoObj) (now : Int) (sid pid : String)
    (hid : truthy? info.id = some sid)
    (hpid : truthy? info.parentID = some pid)
    (hparent : mapGet st.sessionStates pid = none) :
    handleSessionCreated cfg st (some info) now = createRegularSession cfg st info.id now ∧
    mapGet (handleSessionCreated cfg st (some info) now).sessionStates sid =
      some (regularSessionState (generateUUID st.nextId) now) ∧
    (handleSessionCreated cfg st (some info) now).emitted =
      st.emitted ++ [regularRootSpan cfg sid (generateUUID st.nextId) now] ∧
    (regularSessionState (generateUUID st.nextId) now).effectiveRootSpanId =
      generateUUID st.nextId ∧
    (regularSessionState (generateUUID st.nextId) now).parentSessionId = none ∧
    (regularRootSpan cfg sid (generateUUID st.nextId) now).root_span_id =
      generateUUID st.nextId ∧
    (regularRootSpan cfg sid (generateUUID st.nextId) now).span_parents = none := by
  have h1 : handleSessionCreated cfg st (some info) now =
      createRegularSession cfg st info.id now := by
    simp only [handleSessionCreated, Option.some_bind, hid, hpid, hparent]
  refine ⟨h1, ?_, ?_, rfl, rfl, rfl, rfl⟩
  · rw [h1]
    simp only [createRegularSession]
    rw [hid]
    simp [emit, mapGet_mapSet_self]
  · rw [h1]
    simp only [createRegularSession]
    rw [hid]
    simp [emit]

/-- Witness for the amended C5 statement at a concrete orphan event. -/
theorem handleSessionCreated_orphan_parent_witness :
    handleSessionCreated c5Config {} (some { id := some "c", parentID := some "g" }) 7 =
      createRegularSession c5Config {} (some "c") 7 :=
  (handleSessionCreated_orphan_parent c5Config {} { id := some "c", parentID := some "g" }
    7 "c" "g" rfl rfl rfl).1

/-- C8: a tool-executed "after" hook with no SessionState or no open turn
is a complete no-op (no span, state untouched); when a turn is open the
single emitted tool span is parented to that open turn span. -/
theorem processToolExecuteAfter_drop_spec (st : ProcState)
    (sid callID tool title output : String) (metadata : Option Val) (now : Int) :
    (mapGet st.sessionStates sid = none →
      processToolExecuteAfter st sid callID tool title output metadata now = st) ∧
    (∀ s, mapGet st.sessionStates sid = some s → truthy? s.currentTurnSpanId = none →
      processToolExecuteAfter st sid callID tool title output metadata now = st) ∧
    (∀ s t, mapGet st.sessionStates sid = some s → truthy? s.currentTurnSpanId = some t →
      (processToolExecuteAfter st sid callID tool title output metadata now).emitted =
        st.emitted ++ [toolSpanRecord s t callID tool title output metadata st.nextId now] ∧
      (toolSpanRecord s t callID tool title output metadata st.nextId now).span_parents =
        some [t] ∧
      (toolSpanRecord s t callID tool title output metadata st.nextId now).span_attributes =
        some { name := formatToolName tool (some title), type := some .tool }) := by
  refine ⟨?_, ?_, ?_⟩
  · intro h
    simp [processToolExecuteAfter, h]
  · intro s hs ht
    simp [processToolExecuteAfter, hs, ht]
  · intro s t hs ht
    simp only [processToolExecuteAfter, hs, ht]
    exact ⟨by simp [emit], rfl, rfl⟩

/-- Session state with an open turn, for exercising the tool-span and
turn-close paths. -/
def c8OpenState : SessionState :=
  { rootSpanId := "root", effectiveRootSpanId := "root",
    currentTurnSpanId := some "turn-1", turnNumber := 1, toolCallCount := 0,
    startTime := 0 }

/-- Witness for the tool-drop specification: both drop cases and the
emit case at concrete inputs. -/
theorem processToolExecuteAfter_drop_spec_witness :
    (processToolExecuteAfter {} "nosuch" "c1" "read" "t" "out" none 3 = {}) ∧
    (processToolExecuteAfter
        { sessionStates := [("s", c8OpenState)] } "s" "c1" "read" "t" "out" none 3).emitted =
      [toolSpanRecord c8OpenState "turn-1" "c1" "read" "t" "out" none 0 3] ∧
    (toolSpanRecord c8OpenState "turn-1" "c1" "read" "t" "out" none 0 3).span_parents =
      some ["turn-1"] := by
  refine ⟨?_, ?_, ?_⟩
  · exact (processToolExecuteAfter_drop_spec {} "nosuch" "c1" "read" "t" "out" none 3).1 rfl
  · exact ((processToolExecuteAfter_drop_spec { sessionStates := [("s", c8OpenState)] }
      "s" "c1" "read" "t" "out" none 3).2.2 c8OpenState "turn-1" rfl rfl).1
  · exact ((processToolExecuteAfter_drop_spec { sessionStates := [("s", c8OpenState)] }
      "s" "c1" "read" "t" "out" none 3).2.2 c8OpenState "turn-1" rfl rfl).2.1

theorem mapGet_mapDelete_self {α : Type} (m : List (String × α)) (k : String) :
    mapGet (mapDelete m k) k = none := by
  induction m with
  | nil => simp [mapDelete, mapGet]
  | cons p rest ih =>
      obtain ⟨k', v'⟩ := p
      by_cases h : k' = k
      · simpa [mapDelete, h] using ih
      · simpa [mapDelete, mapGet, h] using ih

/-- C6: for a session.error event on a live session, the error name
defaults to "UnknownError" when absent and the message defaults to the
name when absent; the string `"<message>\n\ntype: <name>"` is attached via
merge records to the open turn span (when one exists) and to the root
span, whose merge additionally carries `error_type` in its metadata; and
the SessionState is removed from the session mapping. -/
theorem handleSessionError_spec (st : ProcState) (props : EventProps) (now : Int)
    (key : String) (s : SessionState)
    (hk : truthy? props.sessionID = some key)
    (hs : mapGet st.sessionStates key = some s) :
    mapGet (handleSessionError st props now).sessionStates key = none ∧
    (∀ tid, truthy? s.currentTurnSpanId = some tid →
      (handleSessionError st props now).emitted =
        st.emitted ++
          [turnCloseSpan s tid (some (errorStringOf props)) now,
           rootErrorSpan s (errorStringOf props) (errorNameOf props) now]) ∧
    (truthy? s.currentTurnSpanId = none →
      (handleSessionError st props now).emitted =
        st.emitted ++ [rootErrorSpan s (errorStringOf props) (errorNameOf props) now]) ∧
    (props.error.bind (·.name) = none → errorNameOf props = "UnknownError") ∧
    ((props.error.bind (·.data)).bind (·.message) = none →
      errorMessageOf props = errorNameOf props) ∧
    errorStringOf props = errorMessageOf props ++ "\n\ntype: " ++ errorNameOf props ∧
    (∀ tid,
      (turnCloseSpan s tid (some (errorStringOf props)) now).error =
        some (errorStringOf props) ∧
      (turnCloseSpan s tid (some (errorStringOf props)) now)._is_merge = true) ∧
    (rootErrorSpan s (errorStringOf props) (errorNameOf props) now).error =
      some (errorStringOf props) ∧
    (rootErrorSpan s (errorStringOf props) (errorNameOf props) now)._is_merge = true ∧
    (rootErrorSpan s (errorStringOf props) (errorNameOf props) now).metadata.lookup
      "error_type" = some (.str (errorNameOf props)) := by
  refine ⟨?_, ?_, ?_, ?_, ?_, rfl, fun tid => ⟨rfl, rfl⟩, rfl, rfl, by simp [rootErrorSpan, List.lookup]⟩
  · cases h : truthy? s.currentTurnSpanId with
    | none => simp [handleSessionError, hk, hs, h, emit, mapGet_mapDelete_self]
    | some tid => simp [handleSessionError, hk, hs, h, emit, mapGet_mapDelete_self]
  · intro tid h
    simp [handleSessionError, hk, hs, h, emit]
  · intro h
    simp [handleSessionError, hk, hs, h, emit]
  · intro h
    simp [errorNameOf, h, jsOrS, truthy?]
  · intro h
    simp [errorMessageOf, h, jsOrS, truthy?]

/-- Session state with an open turn used by the error-path witness. -/
def c6State : SessionState :=
  { rootSpanId := "r6", effectiveRootSpanId := "r6",
    currentTurnSpanId := some "t6", turnNumber := 2, toolCallCount := 1, startTime := 0 }

/-- Error payload with no name and no message, exercising both defaults. -/
def c6Props : EventProps := { sessionID := some "s6", error := some {} }

/-- Witness for the session-error specification at concrete inputs. -/
theorem handleSessionError_spec_witness :
    mapGet (handleSessionError { sessionStates := [("s6", c6State)] } c6Props 9).sessionStates
      "s6" = none ∧
    (handleSessionError { sessionStates := [("s6", c6State)] } c6Props 9).emitted =
      [turnCloseSpan c6State "t6" (some (errorStringOf c6Props)) 9,
       rootErrorSpan c6State (errorStringOf c6Props) (errorNameOf c6Props) 9] ∧
    errorNameOf c6Props = "UnknownError" ∧
    errorMessageOf c6Props = errorNameOf c6Props := by
  have h := handleSessionError_spec { sessionStates := [("s6", c6State)] } c6Props 9 "s6"
    c6State rfl rfl
  exact ⟨h.1, h.2.1 "t6" rfl, h.2.2.2.1 rfl, h.2.2.2.2.1 rfl⟩

/-- C7: a chat-message hook on a live session first closes any open turn
via a merge record (output = last captured assistant text, `metrics.end` =
now), then increments the turn number, allocates a fresh turn span id,
records the user message as `currentInput`, and emits a new task-type turn
span named for the incremented turn number, parented to the session root,
with `metrics.start` = now. -/
theorem processChatMessage_spec (st : ProcState) (sid msg : String) (model : Option ModelRef)
    (now : Int) (s : SessionState)
    (hs : mapGet st.sessionStates sid = some s) :
    (∀ tid, truthy? s.currentTurnSpanId = some tid →
      (processChatMessage st sid msg model now).emitted =
        st.emitted ++
          [turnCloseSpan s tid none now,
           newTurnSpan s (generateUUID st.nextId) (s.turnNumber + 1) msg model now]) ∧
    (truthy? s.currentTurnSpanId = none →
      (processChatMessage st sid msg model now).emitted =
        st.emitted ++ [newTurnSpan s (generateUUID st.nextId) (s.turnNumber + 1) msg model now]) ∧
    mapGet (processChatMessage st sid msg model now).sessionStates sid =
      some
        { s with
          turnNumber := s.turnNumber + 1
          currentTurnSpanId := some (generateUUID st.nextId)
          currentOutput := none
          currentInput := some msg
          currentTurnStartTime := some now } ∧
    (∀ tid,
      (turnCloseSpan s tid none now).output = (truthy? s.currentOutput).map Val.str ∧
      (turnCloseSpan s tid none now).metrics.«end» = some now ∧
      (turnCloseSpan s tid none now)._is_merge = true) ∧
    (newTurnSpan s (generateUUID st.nextId) (s.turnNumber + 1) msg model now).span_attributes =
      some { name := some ("Turn " ++ toString (s.turnNumber + 1)), type := some .task } ∧
    (newTurnSpan s (generateUUID st.nextId) (s.turnNumber + 1) msg model now).span_parents =
      some [s.rootSpanId] ∧
    (newTurnSpan s (generateUUID st.nextId) (s.turnNumber + 1) msg model now).metrics.start =
      some now := by
  refine ⟨?_, ?_, ?_, fun tid => ⟨rfl, rfl, rfl⟩, rfl, rfl, rfl⟩
  · intro tid h
    simp [processChatMessage, hs, h, emit]
  · intro h
    simp [processChatMessage, hs, h, emit]
  · cases h : truthy? s.currentTurnSpanId with
    | none => simp [processChatMessage, hs, h, emit, mapGet_mapSet_self]
    | some tid => simp [processChatMessage, hs, h, emit, mapGet_mapSet_self]

/-- Session state with an open turn used by the chat-message witness. -/
def c7State : SessionState :=
  { rootSpanId := "r7", effectiveRootSpanId := "r7",
    currentTurnSpanId := some "t7", currentOutput := some "prev answer",
    turnNumber := 1, toolCallCount := 0, startTime := 0 }

/-- Witness for the chat-message specification at concrete inputs. -/
theorem processChatMessage_spec_witness :
    (processChatMessage { sessionStates := [("s7", c7State)] } "s7" "next question" none
        11).emitted =
      [turnCloseSpan c7State "t7" none 11,
       newTurnSpan c7State (generateUUID 0) 2 "next question" none 11] ∧
    mapGet (processChatMessage { sessionStates := [("s7", c7State)] } "s7" "next question"
        none 11).sessionStates "s7" =
      some
        { c7State with
          turnNumber := 2
          currentTurnSpanId := some (generateUUID 0)
          currentOutput := none
          currentInput := some "next question"
          currentTurnStartTime := some 11 } := by
  have h := processChatMessage_spec { sessionStates := [("s7", c7State)] } "s7"
    "next question" none 11 c7State rfl
  exact ⟨h.1 "t7" rfl, h.2.2.1⟩

/-- C4: a session.created event carrying a parent reference whose parent
SessionState exists creates a child state whose `effectiveRootSpanId` is
the parent's, and emits a child root span whose `root_span_id` is the
parent's effective root (not the child's own fresh id) and whose
`span_parents` is the one-element list holding the parent's open turn span
id when the parent has one, absent otherwise. -/
theorem handleSessionCreated_child_spec (cfg : EventProcessorConfig) (st : ProcState)
    (info : InfoObj) (now : Int) (sid pid : String) (ps : SessionState)
    (hid : truthy? info.id = some sid)
    (hpid : truthy? info.parentID = some pid)
    (hps : mapGet st.sessionStates pid = some ps) :
    (handleSessionCreated cfg st (some info) now).emitted =
      st.emitted ++
        [childRootSpan ps sid pid (subagentTitleOf info.title) (generateUUID st.nextId) now] ∧
    mapGet (handleSessionCreated cfg st (some info) now).sessionStates sid =
      some (childSessionState ps pid (subagentTitleOf info.title) (generateUUID st.nextId) now) ∧
    (childRootSpan ps sid pid (subagentTitleOf info.title) (generateUUID st.nextId)
        now).root_span_id = ps.effectiveRootSpanId ∧
    (∀ t, truthy? ps.currentTurnSpanId = some t →
      (childRootSpan ps sid pid (subagentTitleOf info.title) (generateUUID st.nextId)
          now).span_parents = some [t]) ∧
    (truthy? ps.currentTurnSpanId = none →
      (childRootSpan ps sid pid (subagentTitleOf info.title) (generateUUID st.nextId)
          now).span_parents = none) ∧
    (childSessionState ps pid (subagentTitleOf info.title) (generateUUID st.nextId)
        now).effectiveRootSpanId = ps.effectiveRootSpanId := by
  refine ⟨?_, ?_, rfl, ?_, ?_, rfl⟩
  · simp [handleSessionCreated, Option.some_bind, hid, hpid, hps, emit]
  · simp [handleSessionCreated, Option.some_bind, hid, hpid, hps, emit, mapGet_mapSet_self]
  · intro t h
    simp [childRootSpan, h]
  · intro h
    simp [childRootSpan, h]

/-- Parent session state with an open turn used by the sub-agent witness. -/
def c4Parent : SessionState :=
  { rootSpanId := "own-root", effectiveRootSpanId := "eff-root",
    currentTurnSpanId := some "turn-4", turnNumber := 1, toolCallCount := 0, startTime := 0 }

/-- Witness for the sub-agent linking specification at concrete inputs. -/
theorem handleSessionCreated_child_spec_witness :
    (handleSessionCreated c5Config { sessionStates := [("p4", c4Parent)] }
        (some { id := some "c4", parentID := some "p4",
                title := some "Find files (@explore subagent)" }) 13).emitted =
      [childRootSpan c4Parent "c4" "p4"
        (subagentTitleOf (some "Find files (@explore subagent)")) (generateUUID 0) 13] ∧
    (childRootSpan c4Parent "c4" "p4"
        (subagentTitleOf (some "Find files (@explore subagent)")) (generateUUID 0)
        13).span_parents = some ["turn-4"] ∧
    (childSessionState c4Parent "p4"
        (subagentTitleOf (some "Find files (@explore subagent)")) (generateUUID 0)
        13).effectiveRootSpanId = "eff-root" := by
  have h := handleSessionCreated_child_spec c5Config { sessionStates := [("p4", c4Parent)] }
    { id := some "c4", parentID := some "p4",
      title := some "Find files (@explore subagent)" } 13 "c4" "p4" c4Parent rfl rfl rfl
  exact ⟨h.1, h.2.2.2.1 "turn-4" rfl, h.2.2.2.2.2⟩

/-- Configuration used by the exception scenario. -/
def c9Config : EventProcessorConfig := { projectName := "p9" }

/-- Live session with an open turn, reached through ordinary processing. -/
def c9Setup : ProcState :=
  processChatMessage
    (processEvent c9Config {}
      { type := "session.created", properties := { info := some { id := some "s9" } } } 0)
    "s9" "hi" none 1

/-- A message.updated event that passes every guard of
`handleMessageUpdated` (assistant role, known session, truthy completion
timestamp, unprocessed id, open turn) but carries no `time.created`. -/
def c9BadEvent : Event :=
  { type := "message.updated",
    properties :=
      { info := some { id := some "m9", sessionID := some "s9", role := some "assistant",
                       time := some { completed := some 5 } } } }

/-- C9 (failing input): delivering `c9BadEvent` in state `c9Setup` reaches
the LLM-span construction with an absent `time.created`, where the source
evaluates `new Date(undefined).toISOString()` and throws
`RangeError: Invalid time value` — contradicting the never-throws design. -/
theorem processEvent_throws_on_missing_created :
    processEventThrows c9Setup c9BadEvent = true := by rfl

/-- Children of a parent id, exactly as the children-map of `spansToTree`
collects them (input order). -/
def childrenOf (spans : List SpanData) (pid : String) : List SpanData :=
  spans.filter (childPred pid)

/-- All span ids appearing as nodes of an assembled tree. -/
def treeIds : SpanTree → List String
  | .mk sid _ _ _ _ _ _ _ children =>
      sid :: (children.attach.map (fun c => treeIds c.1)).flatten
termination_by t => sizeOf t
decreasing_by
  have := List.sizeOf_lt_of_mem c.2
  simp
  omega

/-- A record's parent chain reaches the located root: it is the record
`spansToTree` picks as root, or a child (via the first parent id) of a
record that reaches the root. -/
inductive ChainsToRoot (spans : List SpanData) : SpanData → Prop where
  | root (s : SpanData) (hs : spans.find? isRootSpan = some s) : ChainsToRoot spans s
  | step (p c : SpanData) (hp : ChainsToRoot spans p)
      (hc : c ∈ childrenOf spans p.span_id) : ChainsToRoot spans c

theorem mem_enumList_snd {α : Type} :
    ∀ (l : List α) (n i : Nat) (c : α), (i, c) ∈ enumList n l → c ∈ l := by
  intro l
  induction l with
  | nil => intro n i c h; simp [enumList] at h
  | cons x rest ih =>
      intro n i c h
      simp only [enumList, List.mem_cons] at h
      rcases h with h | h
      · simp [Prod.ext_iff] at h
        simp [h.2]
      · exact List.mem_cons_of_mem x (ih (n + 1) i c h)

theorem mem_sortedChildren_children (spans : List SpanData) (pid : String)
    (p : Nat × SpanData) (h : p ∈ sortedChildren spans pid) :
    p.2 ∈ childrenOf spans pid := by
  have hp : p ∈ indexedChildren spans pid :=
    (List.perm_insertionSort childLEP (indexedChildren spans pid)).mem_iff.mp h
  unfold indexedChildren at hp
  obtain ⟨hmem, hpred⟩ := List.mem_filter.mp hp
  exact List.mem_filter.mpr ⟨mem_enumList_snd spans 0 p.1 p.2 hmem, hpred⟩

theorem treeIds_reachable (spans : List SpanData) :
    ∀ (fuel : Nat) (s : SpanData), ChainsToRoot spans s →
      ∀ id ∈ treeIds (buildNode spans fuel s),
        ∃ r, ChainsToRoot spans r ∧ r.span_id = id := by
  intro fuel
  induction fuel with
  | zero =>
      intro s hcr id hid
      simp [buildNode, treeIds] at hid
      exact ⟨s, hcr, hid.symm⟩
  | succ n ih =>
      intro s hcr id hid
      simp only [buildNode, treeIds, List.mem_cons, List.mem_flatten, List.mem_map,
        List.mem_attach, true_and, Subtype.exists] at hid
      rcases hid with hid | ⟨ids, ⟨c, hc, hcids⟩, hidm⟩
      · exact ⟨s, hcr, hid.symm⟩
      · subst hcids
        obtain ⟨q, hq, hbuild⟩ := hc
        have hcof : q.2 ∈ childrenOf spans s.span_id :=
          mem_sortedChildren_children spans s.span_id q hq
        have := ih q.2 (ChainsToRoot.step s q.2 hcr hcof) id
        rw [hbuild] at this
        exact this hidm

/-- C10: `spansToTree` returns `none` for the empty list and for any list
in which no record has empty or absent `span_parents` and no record's
first parent is itself; and every span id appearing as a node of a built
tree belongs to a record whose parent chain reaches the located root, so
records whose chain does not reach the root are omitted. -/
theorem spansToTree_err_spec (spans : List SpanData) :
    spansToTree [] = none ∧
    ((∀ s ∈ spans, isRootSpan s = false) → spansToTree spans = none) ∧
    (∀ t, spansToTree spans = some t →
      ∀ id ∈ treeIds t, ∃ r, ChainsToRoot spans r ∧ r.span_id = id) := by
  refine ⟨rfl, ?_, ?_⟩
  · intro h
    have hf : spans.find? isRootSpan = none :=
      List.find?_eq_none.mpr (fun x hx => by simp [h x hx])
    unfold spansToTree
    rw [hf]
    by_cases he : spans.isEmpty <;> simp [he]
  · intro t ht id hid
    unfold spansToTree at ht
    by_cases he : spans.isEmpty
    · simp [he] at ht
    · simp only [he, if_false] at ht
      cases hf : spans.find? isRootSpan with
      | none => rw [hf] at ht; exact absurd ht (by simp)
      | some root =>
          rw [hf] at ht
          have ht' : buildNode spans spans.length root = t := by
            simpa using ht
          subst ht'
          exact treeIds_reachable spans spans.length root (ChainsToRoot.root root hf) id hid

/-- A single record whose parent chain leaves the list: no root exists. -/
def c10NoRoot : List SpanData :=
  [{ id := "a", span_id := "a", root_span_id := "a", span_parents := some ["x"] }]

/-- Witness for the tree-assembly failure specification: the rootless list
assembles to `none`. -/
theorem spansToTree_err_spec_witness : spansToTree c10NoRoot = none :=
  (spansToTree_err_spec c10NoRoot).2.1 (by decide)

/-! Sibling ordering of the assembled tree (claim about `spansToTree`). -/

theorem enumList_fst_ge {α : Type} :
    ∀ (l : List α) (n : Nat) (p : Nat × α), p ∈ enumList n l → n ≤ p.1 := by
  intro l
  induction l with
  | nil => intro n p h; simp [enumList] at h
  | cons x rest ih =>
      intro n p h
      simp only [enumList, List.mem_cons] at h
      rcases h with h | h
      · simp [h]
      · exact Nat.le_of_succ_le (ih (n + 1) p h)

theorem enumList_fst_lt {α : Type} :
    ∀ (l : List α) (n : Nat), (enumList n l).Pairwise (fun a b => a.1 < b.1) := by
  intro l
  induction l with
  | nil => intro n; simp [enumList]
  | cons x rest ih =>
      intro n
      refine List.Pairwise.cons ?_ (ih (n + 1))
      intro b hb
      exact Nat.lt_of_succ_le (enumList_fst_ge rest (n + 1) b hb)

theorem pairwise_strict_sortedChildren (spans : List SpanData) (pid : String) :
    (sortedChildren spans pid).Pairwise
      (fun a b => startKey a.2 < startKey b.2 ∨ (startKey a.2 = startKey b.2 ∧ a.1 < b.1)) := by
  have hle : (sortedChildren spans pid).Pairwise childLEP :=
    List.sorted_insertionSort childLEP (indexedChildren spans pid)
  have hlt : (indexedChildren spans pid).Pairwise (fun a b => a.1 < b.1) :=
    List.Pairwise.sublist (List.filter_sublist _) (enumList_fst_lt spans 0)
  have hndi : (indexedChildren spans pid).Pairwise (fun a b => a.1 ≠ b.1) :=
    hlt.imp (fun h => Nat.ne_of_lt h)
  have hperm : (sortedChildren spans pid).Perm (indexedChildren spans pid) :=
    List.perm_insertionSort childLEP _
  have hns : (sortedChildren spans pid).Pairwise (fun a b => a.1 ≠ b.1) :=
    (hperm.pairwise_iff (fun h => Ne.symm h)).mpr hndi
  refine (hle.and hns).imp ?_
  intro a b h
  obtain ⟨hab, hne⟩ := h
  unfold childLEP at hab
  rcases hab with h | ⟨heq, hle'⟩
  · exact Or.inl h
  · exact Or.inr ⟨heq, Nat.lt_of_le_of_ne hle' hne⟩

theorem findIdx_of_mem_enumList :
    ∀ (spans : List SpanData), spans.Pairwise (fun a b => a.span_id ≠ b.span_id) →
      ∀ (n i : Nat) (c : SpanData), (i, c) ∈ enumList n spans →
        spans.findIdx (fun s => s.span_id == c.span_id) + n = i := by
  intro spans
  induction spans with
  | nil => intro _ n i c h; simp [enumList] at h
  | cons x rest ih =>
      intro hnd n i c h
      have hx : ∀ b ∈ rest, x.span_id ≠ b.span_id := (List.pairwise_cons.mp hnd).1
      have hrest := (List.pairwise_cons.mp hnd).2
      simp only [enumList, List.mem_cons] at h
      rcases h with h | h
      · obtain ⟨hi, hc⟩ := Prod.mk.injEq .. ▸ h
        simp only [Prod.mk.injEq] at h
        rw [List.findIdx_cons]
        simp [h.2.symm, h.1]
      · have hcr : c ∈ rest := mem_enumList_snd rest (n + 1) i c h
        have hne : x.span_id ≠ c.span_id := hx c hcr
        rw [List.findIdx_cons]
        have hb : (x.span_id == c.span_id) = false := by
          simpa using hne
        simp only [hb, cond_false]
        have := ih hrest (n + 1) i c h
        omega

/-- The position of the first record carrying a span id (the record's
original array position when ids are unique). -/
def idxOfId (spans : List SpanData) (id : String) : Nat :=
  spans.findIdx (fun s => s.span_id == id)

theorem idxOfId_of_mem_sortedChildren (spans : List SpanData)
    (hnd : spans.Pairwise (fun a b => a.span_id ≠ b.span_id)) (pid : String)
    (p : Nat × SpanData) (h : p ∈ sortedChildren spans pid) :
    idxOfId spans p.2.span_id = p.1 := by
  have hp : p ∈ indexedChildren spans pid :=
    (List.perm_insertionSort childLEP (indexedChildren spans pid)).mem_iff.mp h
  have hm : p ∈ enumList 0 spans := (List.mem_filter.mp hp).1
  obtain ⟨i, c⟩ := p
  have := findIdx_of_mem_enumList spans hnd 0 i c hm
  simpa [idxOfId] using this

theorem buildNode_metrics (spans : List SpanData) (fuel : Nat) (s : SpanData) :
    (buildNode spans fuel s).metrics = s.metrics := by
  cases fuel <;> rfl

theorem buildNode_span_id (spans : List SpanData) (fuel : Nat) (s : SpanData) :
    (buildNode spans fuel s).span_id = s.span_id := by
  cases fuel <;> rfl

/-- The `metrics?.start || 0` key of a tree node. -/
def startOfT (t : SpanTree) : Int :=
  t.metrics.start.getD 0

/-- The sibling order the claim asserts for the assembled tree: ascending
start time, ties broken by the position of the span in the input list. -/
def siblingOrder (spans : List SpanData) (a b : SpanTree) : Prop :=
  startOfT a < startOfT b ∨
    (startOfT a = startOfT b ∧ idxOfId spans a.span_id < idxOfId spans b.span_id)

/-- All nodes of an assembled tree. -/
def treeNodes : SpanTree → List SpanTree
  | .mk sid rsid nm ty inp out mx md children =>
      .mk sid rsid nm ty inp out mx md children ::
        (children.attach.map (fun c => treeNodes c.1)).flatten
termination_by t => sizeOf t
decreasing_by
  have := List.sizeOf_lt_of_mem c.2
  simp
  omega

theorem mapped_children_pairwise (spans : List SpanData)
    (hnd : spans.Pairwise (fun a b => a.span_id ≠ b.span_id)) (pid : String) (n : Nat) :
    ((sortedChildren spans pid).map (fun p => buildNode spans n p.2)).Pairwise
      (siblingOrder spans) := by
  rw [List.pairwise_map]
  refine List.Pairwise.imp_of_mem ?_ (pairwise_strict_sortedChildren spans pid)
  intro a b ha hb hab
  have hia := idxOfId_of_mem_sortedChildren spans hnd pid a ha
  have hib := idxOfId_of_mem_sortedChildren spans hnd pid b hb
  unfold siblingOrder startOfT
  rw [buildNode_metrics, buildNode_metrics, buildNode_span_id, buildNode_span_id, hia, hib]
  exact hab

theorem treeNodes_children_pairwise (spans : List SpanData)
    (hnd : spans.Pairwise (fun a b => a.span_id ≠ b.span_id)) :
    ∀ (fuel : Nat) (s : SpanData), ∀ node ∈ treeNodes (buildNode spans fuel s),
      node.children.Pairwise (siblingOrder spans) := by
  intro fuel
  induction fuel with
  | zero =>
      intro s node hn
      simp only [buildNode, treeNodes, List.attach_nil, List.map_nil, List.flatten_nil,
        List.mem_singleton] at hn
      subst hn
      simp [SpanTree.children]
  | succ n ih =>
      intro s node hn
      simp only [buildNode, treeNodes, List.mem_cons, List.mem_flatten, List.mem_map,
        List.mem_attach, true_and, Subtype.exists] at hn
      rcases hn with hn | ⟨ns, ⟨c, hc, hcns⟩, hnm⟩
      · subst hn
        simpa [SpanTree.children] using mapped_children_pairwise spans hnd s.span_id n
      · subst hcns
        obtain ⟨q, hq, hbuild⟩ := hc
        rw [← hbuild] at hnm
        exact ih q.2 node hnm

/-- C3: in the tree `spansToTree` produces from a list of uniquely
identified spans, every node's children are ordered by ascending
`metrics.start || 0`, and siblings with equal start appear in the order of
their positions in the input list (the record inserted first by the sink
appears first). -/
theorem spansToTree_sibling_order (spans : List SpanData)
    (hnd : (spans.map (fun s => s.span_id)).Nodup) (t : SpanTree)
    (ht : spansToTree spans = some t) :
    ∀ node ∈ treeNodes t, node.children.Pairwise (siblingOrder spans) := by
  have hnd' : spans.Pairwise (fun a b => a.span_id ≠ b.span_id) :=
    List.pairwise_map.mp hnd
  unfold spansToTree at ht
  by_cases he : spans.isEmpty
  · simp [he] at ht
  · simp only [he, if_false] at ht
    cases hf : spans.find? isRootSpan with
    | none => rw [hf] at ht; exact absurd ht (by simp)
    | some root =>
        rw [hf] at ht
        have ht' : buildNode spans spans.length root = t := by simpa using ht
        subst ht'
        exact treeNodes_children_pairwise spans hnd' spans.length root

/-- Spans with one root and two same-start siblings recorded in reverse
id order, exercising the tie-break. -/
def c3Spans : List SpanData :=
  [{ id := "r", span_id := "r", root_span_id := "r" },
   { id := "b", span_id := "b", root_span_id := "r", span_parents := some ["r"],
     metrics := { start := some 4 } },
   { id := "a", span_id := "a", root_span_id := "r", span_parents := some ["r"],
     metrics := { start := some 4 } }]

/-- The tree `c3Spans` assembles to: the tie is broken by input order. -/
def c3Tree : SpanTree :=
  .mk "r" "r" none none none none {} []
    [.mk "b" "r" none none none none { start := some 4 } [] [],
     .mk "a" "r" none none none none { start := some 4 } [] []]

/-- Witness for the sibling-order specification at a concrete tie. -/
theorem spansToTree_sibling_order_witness :
    (SpanTree.children c3Tree).Pairwise (siblingOrder c3Spans) :=
  spansToTree_sibling_order c3Spans (by decide) c3Tree (by rfl) c3Tree
    (by simp [c3Tree, treeNodes])

/-! Idempotence of LLM-span emission per message id (claim about
`handleMessageUpdated` across event sequences). -/

/-- Whether a record is an llm-type span for the given message id. -/
def isLlmSpanFor (mid : String) (s : SpanData) : Bool :=
  (match s.span_attributes with
   | some a => decide (a.type = some SpanType.llm)
   | none => false) &&
  (match mapGet s.metadata "message_id" with
   | some (.str m) => m == mid
   | _ => false)

/-- Number of llm-type spans for a message id in an emission journal. -/
def countLlmFor (mid : String) (l : List SpanData) : Nat :=
  (l.filter (isLlmSpanFor mid)).length

/-- The processed-message set of a session (empty when the session has no
state). -/
def processedOf (st : ProcState) (sid : String) : List String :=
  match mapGet st.sessionStates sid with
  | some s => s.processedLlmMessages
  | none => []

theorem countLlmFor_append (mid : String) (l : List SpanData) (s : SpanData) :
    countLlmFor mid (l ++ [s]) =
      countLlmFor mid l + (if isLlmSpanFor mid s then 1 else 0) := by
  simp only [countLlmFor, List.filter_append]
  by_cases h : isLlmSpanFor mid s <;> simp [h]

theorem mem_setAdd (s : List String) (x y : String) :
    y ∈ setAdd s x ↔ y ∈ s ∨ y = x := by
  unfold setAdd
  by_cases h : x ∈ s
  · simp only [h, if_pos]
    constructor
    · exact Or.inl
    · rintro (hy | hy)
      · exact hy
      · exact hy ▸ h
  · simp [h]

theorem isLlmSpanFor_llmSpanRecord (mid : String) (state : SessionState)
    (turnId mid' u : String) (info : InfoObj) :
    isLlmSpanFor mid (llmSpanRecord state turnId mid' u info) = (mid' == mid) := by
  simp [isLlmSpanFor, llmSpanRecord, mapGet]

/-- Either `handleMessageUpdated` changes nothing, or every guard passed
and it marks the message processed and emits exactly one llm span for it. -/
theorem handleMessageUpdated_shape (st : ProcState) (props : EventProps) :
    handleMessageUpdated st props = st ∨
    ∃ info sid' mid' state turnId,
      props.info = some info ∧
      info.role = some "assistant" ∧
      truthy? info.sessionID = some sid' ∧
      truthy? info.id = some mid' ∧
      mapGet st.sessionStates sid' = some state ∧
      (truthyN (info.time.bind (·.completed))).isSome ∧
      mid' ∉ state.processedLlmMessages ∧
      truthy? state.currentTurnSpanId = some turnId ∧
      handleMessageUpdated st props =
        emit
          { st with
            sessionStates :=
              mapSet st.sessionStates sid'
                { state with processedLlmMessages := setAdd state.processedLlmMessages mid' }
            nextId := st.nextId + 1 }
          (llmSpanRecord state turnId mid' (generateUUID st.nextId) info) := by
  cases hinfo : props.info with
  | none => exact Or.inl (by simp [handleMessageUpdated, hinfo])
  | some info =>
      by_cases hrole : info.role = some "assistant"
      · cases hsid : truthy? info.sessionID with
        | none => exact Or.inl (by simp [handleMessageUpdated, hinfo, hsid])
        | some sid' =>
            cases hmid : truthy? info.id with
            | none => exact Or.inl (by simp [handleMessageUpdated, hinfo, hsid, hmid])
            | some mid' =>
                cases hstate : mapGet st.sessionStates sid' with
                | none =>
                    exact Or.inl (by simp [handleMessageUpdated, hinfo, hrole, hsid, hmid, hstate])
                | some state =>
                    cases hcomp : truthyN (info.time.bind (·.completed)) with
                    | none =>
                        exact Or.inl
                          (by simp [handleMessageUpdated, hinfo, hrole, hsid, hmid, hstate, hcomp])
                    | some cval =>
                        by_cases hmem : mid' ∈ state.processedLlmMessages
                        · exact Or.inl
                            (by simp [handleMessageUpdated, hinfo, hrole, hsid, hmid, hstate,
                              hcomp, hmem])
                        · cases hturn : truthy? state.currentTurnSpanId with
                          | none =>
                              exact Or.inl
                                (by simp [handleMessageUpdated, hinfo, hrole, hsid, hmid,
                                  hstate, hcomp, hmem, hturn])
                          | some turnId =>
                              refine Or.inr
                                ⟨info, sid', mid', state, turnId, rfl, hrole, hsid, hmid,
                                  hstate, by simp [hcomp], hmem, hturn, ?_⟩
                              simp [handleMessageUpdated, hinfo, hrole, hsid, hmid, hstate,
                                hcomp, hmem, hturn]
      · exact Or.inl (by simp [handleMessageUpdated, hinfo, hrole])

/-- One message.updated delivery for a fixed session can only convert the
"not yet processed" budget for a message id into an emitted llm span:
the count-plus-budget measure never increases. -/
theorem c1_step (st : ProcState) (props : EventProps) (sid mid : String)
    (hsid : props.info.bind (·.sessionID) = some sid) :
    countLlmFor mid (handleMessageUpdated st props).emitted +
        (if mid ∈ processedOf (handleMessageUpdated st props) sid then 0 else 1) ≤
      countLlmFor mid st.emitted + (if mid ∈ processedOf st sid then 0 else 1) := by
  rcases handleMessageUpdated_shape st props with heq |
    ⟨info, sid', mid', state, turnId, hinfo, hrole, hsid', hmid', hstate, hcomp, hproc,
      hturn, heq⟩
  · rw [heq]
  · rw [hinfo] at hsid
    simp only [Option.some_bind] at hsid
    rw [hsid] at hsid'
    have hss : sid' = sid := by
      by_cases h0 : sid = ""
      · simp [truthy?, h0] at hsid'
      · simp [truthy?, h0] at hsid'
        simp [hsid'.symm]
    subst hss
    rw [heq]
    have hpo : processedOf st sid' = state.processedLlmMessages := by
      simp [processedOf, hstate]
    have hpo' :
        processedOf
          (emit
            { st with
              sessionStates :=
                mapSet st.sessionStates sid'
                  { state with
                    processedLlmMessages := setAdd state.processedLlmMessages mid' }
              nextId := st.nextId + 1 }
            (llmSpanRecord state turnId mid' (generateUUID st.nextId) info)) sid' =
          setAdd state.processedLlmMessages mid' := by
      simp [processedOf, emit, mapGet_mapSet_self]
    rw [hpo, hpo']
    show countLlmFor mid
        (st.emitted ++ [llmSpanRecord state turnId mid' (generateUUID st.nextId) info]) + _ ≤ _
    rw [countLlmFor_append, isLlmSpanFor_llmSpanRecord]
    by_cases hmm : mid' = mid
    · subst hmm
      simp only [beq_self_eq_true, if_true]
      have h1 : mid' ∈ setAdd state.processedLlmMessages mid' := by
        rw [mem_setAdd]
        exact Or.inr rfl
      simp [h1, hproc]
    · have hb : (mid' == mid) = false := by simpa using hmm
      have h2 : mid ∈ setAdd state.processedLlmMessages mid' ↔
          mid ∈ state.processedLlmMessages := by
        rw [mem_setAdd]
        constructor
        · rintro (h | h)
          · exact h
          · exact absurd h.symm hmm
        · exact Or.inl
      rw [hb]
      by_cases hm : mid ∈ state.processedLlmMessages
      · simp [hm, h2.mpr hm]
      · have : mid ∉ setAdd state.processedLlmMessages mid' := fun hc => hm (h2.mp hc)
        simp [hm, this]

theorem processEvent_messageUpdated (cfg : EventProcessorConfig) (st : ProcState)
    (ev : Event) (now : Int) (h : ev.type = "message.updated") :
    processEvent cfg st ev now = handleMessageUpdated st ev.properties := by
  simp [processEvent, h]

/-- The count-plus-budget measure is monotone along any sequence of
message.updated events for one session. -/
theorem c1_run (cfg : EventProcessorConfig) (st : ProcState) (sid mid : String)
    (evs : List (Event × Int))
    (h : ∀ p ∈ evs, (p : Event × Int).1.type = "message.updated" ∧
        p.1.properties.info.bind (·.sessionID) = some sid) :
    countLlmFor mid (runEvents cfg st evs).emitted +
        (if mid ∈ processedOf (runEvents cfg st evs) sid then 0 else 1) ≤
      countLlmFor mid st.emitted + (if mid ∈ processedOf st sid then 0 else 1) := by
  induction evs generalizing st with
  | nil => simp [runEvents]
  | cons p rest ih =>
      have hp := h p (by simp)
      have hrun : runEvents cfg st (p :: rest) =
          runEvents cfg (processEvent cfg st p.1 p.2) rest := rfl
      rw [hrun]
      have h1 := ih (processEvent cfg st p.1 p.2) (fun q hq => h q (by simp [hq]))
      have h2 : countLlmFor mid (processEvent cfg st p.1 p.2).emitted +
          (if mid ∈ processedOf (processEvent cfg st p.1 p.2) sid then 0 else 1) ≤
          countLlmFor mid st.emitted + (if mid ∈ processedOf st sid then 0 else 1) := by
        rw [processEvent_messageUpdated cfg st p.1 p.2 hp.1]
        exact c1_step st p.1.properties sid mid hp.2
      omega

/-- C1: across any sequence of message.updated events for one session, at
most one new llm-type span is emitted per message id (idempotence under
duplicate completion notifications); and a single delivery emits an llm
span for a message id only when the role is "assistant", the session and
message ids are truthy, the session state exists, the message carries a
truthy completion timestamp, the id is not already in
`processedLlmMessages`, and a turn is currently open. -/
theorem llm_span_once (cfg : EventProcessorConfig) (st : ProcState) (sid mid : String)
    (evs : List (Event × Int))
    (h : ∀ p ∈ evs, (p : Event × Int).1.type = "message.updated" ∧
        p.1.properties.info.bind (·.sessionID) = some sid) :
    countLlmFor mid (runEvents cfg st evs).emitted ≤ countLlmFor mid st.emitted + 1 ∧
    (∀ props, countLlmFor mid (handleMessageUpdated st props).emitted >
        countLlmFor mid st.emitted →
      ∃ info state,
        props.info = some info ∧
        info.role = some "assistant" ∧
        truthy? info.id = some mid ∧
        (∃ s', truthy? info.sessionID = some s' ∧ mapGet st.sessionStates s' = some state) ∧
        (truthyN (info.time.bind (·.completed))).isSome = true ∧
        mid ∉ state.processedLlmMessages ∧
        (truthy? state.currentTurnSpanId).isSome = true) := by
  constructor
  · have := c1_run cfg st sid mid evs h
    by_cases h1 : mid ∈ processedOf (runEvents cfg st evs) sid <;>
      by_cases h2 : mid ∈ processedOf st sid <;>
      simp [h1, h2] at this <;> omega
  · intro props hcount
    rcases handleMessageUpdated_shape st props with heq |
      ⟨info, sid', mid', state, turnId, hinfo, hrole, hsid', hmid', hstate, hcomp, hproc,
        hturn, heq⟩
    · rw [heq] at hcount
      omega
    · rw [heq] at hcount
      have : countLlmFor mid
          (st.emitted ++ [llmSpanRecord state turnId mid' (generateUUID st.nextId) info]) >
          countLlmFor mid st.emitted := hcount
      rw [countLlmFor_append, isLlmSpanFor_llmSpanRecord] at this
      have hmm : mid' = mid := by
        by_cases hmm : mid' = mid
        · exact hmm
        · have hb : (mid' == mid) = false := by simpa using hmm
          simp [hb] at this
      subst hmm
      exact ⟨info, state, hinfo, hrole, hmid', ⟨sid', hsid', hstate⟩, hcomp, hproc,
        by simp [hturn]⟩

/-- Live session with an open turn for the idempotence witness. -/
def c1State : SessionState :=
  { rootSpanId := "r1", effectiveRootSpanId := "r1",
    currentTurnSpanId := some "t1", turnNumber := 1, toolCallCount := 0, startTime := 0 }

/-- Two identical completion notifications for the same message. -/
def c1Events : List (Event × Int) :=
  [({ type := "message.updated",
      properties :=
        { info := some { id := some "m1", sessionID := some "s1", role := some "assistant",
                         time := some { created := some 10, completed := some 20 } } } }, 0),
   ({ type := "message.updated",
      properties :=
        { info := some { id := some "m1", sessionID := some "s1", role := some "assistant",
                         time := some { created := some 10, completed := some 20 } } } }, 1)]

/-- Witness for the idempotence bound under a duplicated completion
notification. -/
theorem llm_span_once_witness :
    countLlmFor "m1"
        (runEvents { projectName := "w" } { sessionStates := [("s1", c1State)] }
          c1Events).emitted ≤
      countLlmFor "m1" ({ sessionStates := [("s1", c1State)] } : ProcState).emitted + 1 :=
  (llm_span_once { projectName := "w" } { sessionStates := [("s1", c1State)] } "s1" "m1"
    c1Events (by decide)).1
